import Mathlib

/-!
Shallow embedding of the `tokens` pallet engine (src/tokens/src/lib.rs).

All public engine operations act on a single currency id, so the state is
modelled per-currency: a total issuance figure, a map from account id to
`AccountData`, a map from account id to its lock list, and the cumulative
amount handed to the dust sink (`OnDustRemoval`).

`Balance` is an unsigned integer type; it is modelled as `Nat`.  The source
uses `checked_sub` / `checked_add` at the places where over- or underflow is
caught and reported; those are modelled with `Option`.  The one `checked_add`
whose overflow is observable (`deposit`'s total-issuance check) is modelled
against an explicit largest representable value `MAX`.  The remaining raw
`+` / `-` on balances are modelled by `Nat` addition and truncated
subtraction.  Account ids and lock identifiers are opaque; both are `Nat`
here.  The account-reference counter (`inc_ref` / `dec_ref`) is an external
collaborator and carries no balance state, so it is not modelled.
-/

namespace Tokens

/-- Errors of the token module (`decl_error!`). -/
inductive Err where
  | BalanceTooLow
  | TotalIssuanceOverflow
  | AmountIntoBalanceFailed
  | ExistentialDeposit
  | LiquidityRestrictions
deriving DecidableEq

/-- Destination pool for `repatriate_reserved`. -/
inductive BalanceStatus where
  | free
  | reserved
deriving DecidableEq

/-- A single lock on a balance (`BalanceLock`). -/
structure BalanceLock where
  id : Nat
  amount : Nat
deriving DecidableEq

/-- Balance information for an account (`AccountData`). -/
structure AccountData where
  free : Nat
  reserved : Nat
  frozen : Nat
deriving DecidableEq

/-- `AccountData::total`: free + reserved (saturating add; `Nat` add). -/
def AccountData.total (a : AccountData) : Nat :=
  a.free + a.reserved

/-- The per-currency storage: `TotalIssuance`, `Accounts`, `Locks`, plus the
cumulative amount sent to the dust sink. -/
structure State where
  totalIssuance : Nat
  accounts : Nat → AccountData
  locks : Nat → List BalanceLock
  dust : Nat

/-- `checked_sub` on `Balance`. -/
def checked_sub (a b : Nat) : Option Nat :=
  if b ≤ a then some (a - b) else none

/-- `checked_add` on `Balance`, with `MAX` the largest representable value. -/
def checked_add (MAX a b : Nat) : Option Nat :=
  if a + b ≤ MAX then some (a + b) else none

/-- `free_balance`. -/
def free_balance (s : State) (who : Nat) : Nat :=
  (s.accounts who).free

/-- `reserved_balance`. -/
def reserved_balance (s : State) (who : Nat) : Nat :=
  (s.accounts who).reserved

/-- `total_balance`. -/
def total_balance (s : State) (who : Nat) : Nat :=
  (s.accounts who).total

/-- `set_free_balance`: set the free balance of `who`, enforcing the
existential rule on the free balance: a value below `ED` is cleared to zero,
handed to the dust sink, and subtracted from the total issuance. -/
def set_free_balance (ED : Nat) (s : State) (who b : Nat) : State :=
  if b < ED then
    { s with
      accounts := Function.update s.accounts who { s.accounts who with free := 0 }
      dust := s.dust + b
      totalIssuance := s.totalIssuance - b }
  else
    { s with accounts := Function.update s.accounts who { s.accounts who with free := b } }

/-- `set_reserved_balance`: plain write of the reserved balance. -/
def set_reserved_balance (s : State) (who b : Nat) : State :=
  { s with accounts := Function.update s.accounts who { s.accounts who with reserved := b } }

/-- The frozen figure recomputed by `update_locks`: fold of `max` over the
lock amounts, starting from zero. -/
def frozenOf (ls : List BalanceLock) : Nat :=
  ls.foldl (fun m l => max m l.amount) 0

/-- `update_locks`: recompute `frozen` from the given lock list and store the
list (an empty list is removed from storage, which reads back as the
default empty list; the reference-counter side effect is external). -/
def update_locks (s : State) (who : Nat) (ls : List BalanceLock) : State :=
  { s with
    accounts := Function.update s.accounts who { s.accounts who with frozen := frozenOf ls }
    locks := Function.update s.locks who ls }

/-- `ensure_can_withdraw`. -/
def ensure_can_withdraw (s : State) (who amount : Nat) : Except Err Unit :=
  if amount = 0 then .ok ()
  else
    match checked_sub (free_balance s who) amount with
    | none => .error .BalanceTooLow
    | some new_balance =>
      if (s.accounts who).frozen ≤ new_balance then .ok ()
      else .error .LiquidityRestrictions

/-- `MultiCurrency::transfer`. -/
def transfer (ED : Nat) (s : State) (src dst amount : Nat) : Except Err State :=
  if amount = 0 ∨ src = dst then .ok s
  else
    match ensure_can_withdraw s src amount with
    | .error e => .error e
    | .ok _ =>
      let from_balance := free_balance s src
      let to_balance := free_balance s dst
      if ED ≤ to_balance + amount then
        if src ≠ dst then
          let s1 := set_free_balance ED s src (from_balance - amount)
          .ok (set_free_balance ED s1 dst (to_balance + amount))
        else .ok s
      else .error .ExistentialDeposit

/-- `MultiCurrency::deposit`. -/
def deposit (ED MAX : Nat) (s : State) (who amount : Nat) : Except Err State :=
  if amount = 0 then .ok s
  else if (checked_add MAX s.totalIssuance amount).isSome then
    let balance := free_balance s who
    if balance = 0 ∧ amount < ED then .ok s
    else
      let s1 := { s with totalIssuance := s.totalIssuance + amount }
      .ok (set_free_balance ED s1 who (balance + amount))
  else .error .TotalIssuanceOverflow

/-- `MultiCurrency::withdraw`. -/
def withdraw (ED : Nat) (s : State) (who amount : Nat) : Except Err State :=
  if amount = 0 then .ok s
  else
    match ensure_can_withdraw s who amount with
    | .error e => .error e
    | .ok _ =>
      let s1 := { s with totalIssuance := s.totalIssuance - amount }
      .ok (set_free_balance ED s1 who (free_balance s1 who - amount))

/-- `MultiCurrency::can_slash`. -/
def can_slash (s : State) (who value : Nat) : Bool :=
  if value = 0 then true else decide (value ≤ free_balance s who)

/-- `MultiCurrency::slash`: returns the leftover amount and the new state. -/
def slash (ED : Nat) (s : State) (who amount : Nat) : Nat × State :=
  if amount = 0 then (amount, s)
  else
    let account := s.accounts who
    let free_slashed_amount := min account.free amount
    let remaining_slash := amount - free_slashed_amount
    let s1 :=
      if free_slashed_amount ≠ 0 then
        set_free_balance ED s who (account.free - free_slashed_amount)
      else s
    let p :=
      if remaining_slash ≠ 0 then
        let reserved_slashed_amount := min account.reserved remaining_slash
        (remaining_slash - reserved_slashed_amount,
          set_reserved_balance s1 who (account.reserved - reserved_slashed_amount))
      else (remaining_slash, s1)
    (p.1, { p.2 with totalIssuance := p.2.totalIssuance - (amount - p.1) })

/-- The `filter_map` loop of `set_lock`: the first element whose id matches
takes the pending new lock (replacing the element), later matches drop, and
non-matching elements pass through.  Returns the produced list and the
not-yet-consumed new lock. -/
def setLockScan (lock_id : Nat) :
    List BalanceLock → Option BalanceLock → List BalanceLock × Option BalanceLock
  | [], nl => ([], nl)
  | l :: ls, nl =>
    if l.id = lock_id then
      match nl with
      | some x =>
        let p := setLockScan lock_id ls none
        (x :: p.1, p.2)
      | none => setLockScan lock_id ls none
    else
      let p := setLockScan lock_id ls nl
      (l :: p.1, p.2)

/-- `MultiLockableCurrency::set_lock`. -/
def set_lock (s : State) (lock_id who amount : Nat) : State :=
  if amount = 0 then s
  else
    let p := setLockScan lock_id (s.locks who) (some ⟨lock_id, amount⟩)
    let ls := match p.2 with
      | some l => p.1 ++ [l]
      | none => p.1
    update_locks s who ls

/-- The `filter_map` loop of `extend_lock`: the first element whose id
matches takes the pending new lock and is replaced by a lock carrying the
maximum of the two amounts; later matches drop; others pass through. -/
def extendLockScan (lock_id : Nat) :
    List BalanceLock → Option BalanceLock → List BalanceLock × Option BalanceLock
  | [], nl => ([], nl)
  | l :: ls, nl =>
    if l.id = lock_id then
      match nl with
      | some x =>
        let p := extendLockScan lock_id ls none
        (⟨l.id, max l.amount x.amount⟩ :: p.1, p.2)
      | none => extendLockScan lock_id ls none
    else
      let p := extendLockScan lock_id ls nl
      (l :: p.1, p.2)

/-- `MultiLockableCurrency::extend_lock`. -/
def extend_lock (s : State) (lock_id who amount : Nat) : State :=
  if amount = 0 then s
  else
    let p := extendLockScan lock_id (s.locks who) (some ⟨lock_id, amount⟩)
    let ls := match p.2 with
      | some l => p.1 ++ [l]
      | none => p.1
    update_locks s who ls

/-- `MultiLockableCurrency::remove_lock`. -/
def remove_lock (s : State) (lock_id who : Nat) : State :=
  update_locks s who ((s.locks who).filter (fun l => l.id ≠ lock_id))

/-- `MultiReservableCurrency::can_reserve`. -/
def can_reserve (s : State) (who value : Nat) : Bool :=
  if value = 0 then true
  else
    match ensure_can_withdraw s who value with
    | .ok _ => true
    | .error _ => false

/-- `MultiReservableCurrency::slash_reserved`: leftover and new state. -/
def slash_reserved (s : State) (who value : Nat) : Nat × State :=
  if value = 0 then (0, s)
  else
    let rb := reserved_balance s who
    let actual := min rb value
    let s1 := set_reserved_balance s who (rb - actual)
    (value - actual, { s1 with totalIssuance := s1.totalIssuance - actual })

/-- `MultiReservableCurrency::reserve`. -/
def reserve (ED : Nat) (s : State) (who value : Nat) : Except Err State :=
  if value = 0 then .ok s
  else
    match ensure_can_withdraw s who value with
    | .error e => .error e
    | .ok _ =>
      let account := s.accounts who
      let s1 := set_free_balance ED s who (account.free - value)
      .ok (set_reserved_balance s1 who (account.reserved + value))

/-- `MultiReservableCurrency::unreserve`: leftover and new state. -/
def unreserve (ED : Nat) (s : State) (who value : Nat) : Nat × State :=
  if value = 0 then (0, s)
  else
    let account := s.accounts who
    let actual := min account.reserved value
    let s1 := set_reserved_balance s who (account.reserved - actual)
    let s2 := set_free_balance ED s1 who (account.free + actual)
    (value - actual, s2)

/-- `MultiReservableCurrency::repatriate_reserved`: leftover and new state. -/
def repatriate_reserved (ED : Nat) (s : State) (slashed beneficiary value : Nat)
    (status : BalanceStatus) : Except Err (Nat × State) :=
  if value = 0 then .ok (0, s)
  else if slashed = beneficiary then
    match status with
    | .free => .ok (unreserve ED s slashed value)
    | .reserved => .ok (value - reserved_balance s slashed, s)
  else
    let from_account := s.accounts slashed
    let to_account := s.accounts beneficiary
    let actual := min from_account.reserved value
    let s1 :=
      match status with
      | .free => set_free_balance ED s beneficiary (to_account.free + actual)
      | .reserved => set_reserved_balance s beneficiary (to_account.reserved + actual)
    let s2 := set_reserved_balance s1 slashed (from_account.reserved - actual)
    .ok (value - actual, s2)

/-- The public engine operations, as one step alphabet. -/
inductive Op where
  | transfer (src dst amount : Nat)
  | deposit (who amount : Nat)
  | withdraw (who amount : Nat)
  | slash (who amount : Nat)
  | reserve (who value : Nat)
  | unreserve (who value : Nat)
  | slashReserved (who value : Nat)
  | repatriateReserved (slashed beneficiary value : Nat) (status : BalanceStatus)
  | setLock (lock_id who amount : Nat)
  | extendLock (lock_id who amount : Nat)
  | removeLock (lock_id who : Nat)

/-- The accounts an operation may touch. -/
def Op.touches : Op → List Nat
  | .transfer src dst _ => [src, dst]
  | .deposit who _ => [who]
  | .withdraw who _ => [who]
  | .slash who _ => [who]
  | .reserve who _ => [who]
  | .unreserve who _ => [who]
  | .slashReserved who _ => [who]
  | .repatriateReserved slashed beneficiary _ _ => [slashed, beneficiary]
  | .setLock _ who _ => [who]
  | .extendLock _ who _ => [who]
  | .removeLock _ who => [who]

/-- Run one public operation; a failing operation leaves the state
unchanged (operations are atomic: all checks precede all writes). -/
def runOp (ED MAX : Nat) (s : State) : Op → State
  | .transfer src dst amount => ((transfer ED s src dst amount).toOption).getD s
  | .deposit who amount => ((deposit ED MAX s who amount).toOption).getD s
  | .withdraw who amount => ((withdraw ED s who amount).toOption).getD s
  | .slash who amount => (slash ED s who amount).2
  | .reserve who value => ((reserve ED s who value).toOption).getD s
  | .unreserve who value => (unreserve ED s who value).2
  | .slashReserved who value => (slash_reserved s who value).2
  | .repatriateReserved slashed beneficiary value status =>
      (((repatriate_reserved ED s slashed beneficiary value status).toOption).map Prod.snd).getD s
  | .setLock lock_id who amount => set_lock s lock_id who amount
  | .extendLock lock_id who amount => extend_lock s lock_id who amount
  | .removeLock lock_id who => remove_lock s lock_id who

/-- Issuance conservation relative to a finite set `S` of accounts: the
total issuance equals the sum of free + reserved over the accounts in `S`. -/
def conservesOn (S : Finset Nat) (s : State) : Prop :=
  s.totalIssuance = S.sum (fun a => (s.accounts a).total)

/-- Lookup of a lock amount by lock id in a lock list. -/
def lockAmount (lock_id : Nat) (ls : List BalanceLock) : Option Nat :=
  (ls.find? (fun l => l.id == lock_id)).map (fun l => l.amount)

/-- The lock invariant for one account: pairwise-distinct lock ids, and the
frozen field equal to the maximum lock amount (zero when no locks). -/
def LockInv (s : State) (who : Nat) : Prop :=
  ((s.locks who).map (fun l => l.id)).Nodup ∧
    (s.accounts who).frozen = ((s.locks who).map (fun l => l.amount)).foldr max 0

/-! ### Helper lemmas -/

lemma total_le_sum (S : Finset Nat) (f : Nat → AccountData) {who : Nat} (h : who ∈ S) :
    (f who).total ≤ S.sum (fun a => (f a).total) :=
  Finset.single_le_sum (f := fun a => (f a).total) (fun _ _ => Nat.zero_le _) h

lemma sum_total_update (S : Finset Nat) (f : Nat → AccountData) {who : Nat} (h : who ∈ S)
    (v : AccountData) :
    S.sum (fun a => ((Function.update f who v) a).total) + (f who).total
      = S.sum (fun a => (f a).total) + v.total := by
  have h1 : S.sum (fun a => ((Function.update f who v) a).total)
      = S.sum (fun a => Function.update (fun x => (f x).total) who v.total a) :=
    Finset.sum_congr rfl
      (fun a _ => Function.apply_update (fun _ acc => AccountData.total acc) f who v a)
  have h2 : (f who).total + (S.erase who).sum (fun a => (f a).total)
      = S.sum (fun a => (f a).total) := Finset.add_sum_erase S (fun a => (f a).total) h
  rw [h1, Finset.sum_update_of_mem h, Finset.sdiff_singleton_eq_erase]
  omega

lemma sfb_accounts (ED : Nat) (s : State) (who b : Nat) :
    (set_free_balance ED s who b).accounts
      = Function.update s.accounts who
          { s.accounts who with free := if b < ED then 0 else b } := by
  unfold set_free_balance
  split <;> rename_i h <;> simp [h]

lemma sfb_totalIssuance (ED : Nat) (s : State) (who b : Nat) :
    (set_free_balance ED s who b).totalIssuance
      = if b < ED then s.totalIssuance - b else s.totalIssuance := by
  unfold set_free_balance
  split <;> rename_i h <;> simp [h]

lemma sfb_locks (ED : Nat) (s : State) (who b : Nat) :
    (set_free_balance ED s who b).locks = s.locks := by
  unfold set_free_balance
  split <;> rfl

lemma sfb_sum (ED : Nat) (s : State) (who b : Nat) (S : Finset Nat) (hwho : who ∈ S) :
    S.sum (fun a => ((set_free_balance ED s who b).accounts a).total) + (s.accounts who).total
      = S.sum (fun a => (s.accounts a).total) + (if b < ED then 0 else b)
          + (s.accounts who).reserved := by
  have h1 := sum_total_update S s.accounts hwho
    { s.accounts who with free := if b < ED then 0 else b }
  rw [sfb_accounts]
  simp only [AccountData.total] at h1 ⊢
  omega

lemma srb_sum (s : State) (who b : Nat) (S : Finset Nat) (hwho : who ∈ S) :
    S.sum (fun a => ((set_reserved_balance s who b).accounts a).total) + (s.accounts who).total
      = S.sum (fun a => (s.accounts a).total) + (s.accounts who).free + b := by
  have h1 := sum_total_update S s.accounts hwho { s.accounts who with reserved := b }
  simp only [set_reserved_balance, AccountData.total] at h1 ⊢
  omega

lemma ensure_can_withdraw_ok (s : State) (who amount : Nat) :
    ensure_can_withdraw s who amount = .ok () ↔
      amount = 0 ∨ (amount ≤ free_balance s who ∧
        (s.accounts who).frozen ≤ free_balance s who - amount) := by
  by_cases h0 : amount = 0
  · simp [ensure_can_withdraw, h0]
  · by_cases h1 : amount ≤ free_balance s who
    · by_cases h2 : (s.accounts who).frozen ≤ free_balance s who - amount
      · simp [ensure_can_withdraw, checked_sub, h0, h1, h2]
      · simp [ensure_can_withdraw, checked_sub, h0, h1, h2]
    · simp [ensure_can_withdraw, checked_sub, h0, h1]

lemma conserve_withdraw (ED MAX : Nat) (S : Finset Nat) (s : State) (who amount : Nat)
    (hwho : who ∈ S) (hinv : conservesOn S s) :
    conservesOn S (runOp ED MAX s (.withdraw who amount)) := by
  have hrun : runOp ED MAX s (.withdraw who amount)
      = (withdraw ED s who amount).toOption.getD s := rfl
  rw [hrun]; unfold withdraw
  by_cases h0 : amount = 0
  · simpa [h0] using hinv
  · rcases h : ensure_can_withdraw s who amount with e | u
    · simpa [h0, h] using hinv
    · have hok : ensure_can_withdraw s who amount = .ok () := by rw [h]
      rw [ensure_can_withdraw_ok] at hok
      have hle : amount ≤ free_balance s who := by tauto
      rw [if_neg h0]
      dsimp only [Except.toOption, Option.getD, free_balance]
      have hsum := sfb_sum ED ⟨s.totalIssuance - amount, s.accounts, s.locks, s.dust⟩ who
        ((s.accounts who).free - amount) S hwho
      have hTI := sfb_totalIssuance ED ⟨s.totalIssuance - amount, s.accounts, s.locks, s.dust⟩ who
        ((s.accounts who).free - amount)
      have hbound := total_le_sum S s.accounts hwho
      simp only [conservesOn] at hinv ⊢
      simp only [free_balance] at hle
      dsimp only [Except.toOption, Option.getD] at hsum hTI ⊢
      simp only [AccountData.total] at hsum hTI hbound hinv ⊢
      by_cases hd : (s.accounts who).free - amount < ED <;>
        simp only [hd, if_true, if_false] at hsum hTI <;> omega

lemma conserve_deposit (ED MAX : Nat) (S : Finset Nat) (s : State) (who amount : Nat)
    (hwho : who ∈ S) (hinv : conservesOn S s) :
    conservesOn S (runOp ED MAX s (.deposit who amount)) := by
  have hrun : runOp ED MAX s (.deposit who amount)
      = (deposit ED MAX s who amount).toOption.getD s := rfl
  rw [hrun]; unfold deposit
  by_cases h0 : amount = 0
  · simpa [h0] using hinv
  · rw [if_neg h0]
    by_cases hover : s.totalIssuance + amount ≤ MAX
    · rw [if_pos (by simp [checked_add, hover])]
      dsimp only [free_balance]
      by_cases hed : (s.accounts who).free = 0 ∧ amount < ED
      · rw [if_pos hed]; simpa using hinv
      · rw [if_neg hed]
        dsimp only [Except.toOption, Option.getD]
        have hsum := sfb_sum ED ⟨s.totalIssuance + amount, s.accounts, s.locks, s.dust⟩ who
          ((s.accounts who).free + amount) S hwho
        have hTI := sfb_totalIssuance ED ⟨s.totalIssuance + amount, s.accounts, s.locks, s.dust⟩
          who ((s.accounts who).free + amount)
        have hbound := total_le_sum S s.accounts hwho
        simp only [conservesOn] at hinv ⊢
        dsimp only at hsum hTI
        simp only [AccountData.total] at hsum hTI hbound hinv ⊢
        by_cases hd : (s.accounts who).free + amount < ED <;>
          simp only [hd, if_true, if_false] at hsum hTI <;> omega
    · rw [if_neg (by simp [checked_add, hover])]
      simpa using hinv

lemma conserve_slash_reserved (ED MAX : Nat) (S : Finset Nat) (s : State) (who value : Nat)
    (hwho : who ∈ S) (hinv : conservesOn S s) :
    conservesOn S (runOp ED MAX s (.slashReserved who value)) := by
  have hrun : runOp ED MAX s (.slashReserved who value) = (slash_reserved s who value).2 := rfl
  rw [hrun]; unfold slash_reserved
  by_cases h0 : value = 0
  · simpa [h0] using hinv
  · rw [if_neg h0]
    dsimp only [reserved_balance]
    have hsum := srb_sum s who
      ((s.accounts who).reserved - min (s.accounts who).reserved value) S hwho
    have hbound := total_le_sum S s.accounts hwho
    simp only [conservesOn] at hinv ⊢
    simp only [AccountData.total, set_reserved_balance] at hsum hbound hinv ⊢
    omega

lemma conserve_unreserve (ED MAX : Nat) (S : Finset Nat) (s : State) (who value : Nat)
    (hwho : who ∈ S) (hinv : conservesOn S s) :
    conservesOn S (runOp ED MAX s (.unreserve who value)) := by
  have hrun : runOp ED MAX s (.unreserve who value) = (unreserve ED s who value).2 := rfl
  rw [hrun]; unfold unreserve
  by_cases h0 : value = 0
  · simpa [h0] using hinv
  · rw [if_neg h0]
    dsimp only
    have hsum1 := srb_sum s who
      ((s.accounts who).reserved - min (s.accounts who).reserved value) S hwho
    have hsum2 := sfb_sum ED
      (set_reserved_balance s who
        ((s.accounts who).reserved - min (s.accounts who).reserved value)) who
      ((s.accounts who).free + min (s.accounts who).reserved value) S hwho
    have hTI2 := sfb_totalIssuance ED
      (set_reserved_balance s who
        ((s.accounts who).reserved - min (s.accounts who).reserved value)) who
      ((s.accounts who).free + min (s.accounts who).reserved value)
    have hbound1 := total_le_sum S s.accounts hwho
    have hbound2 := total_le_sum S
      (set_reserved_balance s who
        ((s.accounts who).reserved - min (s.accounts who).reserved value)).accounts hwho
    simp only [conservesOn] at hinv ⊢
    simp only [set_reserved_balance, Function.update_same, AccountData.total]
      at hsum1 hsum2 hTI2 hbound1 hbound2 hinv ⊢
    by_cases hd : (s.accounts who).free + min (s.accounts who).reserved value < ED <;>
      simp only [hd, if_true, if_false] at hsum2 hTI2 <;> omega

lemma conserve_reserve (ED MAX : Nat) (S : Finset Nat) (s : State) (who value : Nat)
    (hwho : who ∈ S) (hinv : conservesOn S s) :
    conservesOn S (runOp ED MAX s (.reserve who value)) := by
  have hrun : runOp ED MAX s (.reserve who value)
      = (reserve ED s who value).toOption.getD s := rfl
  rw [hrun]; unfold reserve
  by_cases h0 : value = 0
  · simpa [h0] using hinv
  · rcases h : ensure_can_withdraw s who value with e | u
    · simpa [h0, h] using hinv
    · have hok : ensure_can_withdraw s who value = .ok () := by rw [h]
      rw [ensure_can_withdraw_ok] at hok
      have hle : value ≤ free_balance s who := by tauto
      rw [if_neg h0]
      dsimp only [Except.toOption, Option.getD]
      have hsum1 := sfb_sum ED s who ((s.accounts who).free - value) S hwho
      have hTI1 := sfb_totalIssuance ED s who ((s.accounts who).free - value)
      have hsum2 := srb_sum (set_free_balance ED s who ((s.accounts who).free - value)) who
        ((s.accounts who).reserved + value) S hwho
      have hbound1 := total_le_sum S s.accounts hwho
      simp only [conservesOn] at hinv ⊢
      simp only [free_balance] at hle
      simp only [sfb_accounts, Function.update_same, set_reserved_balance, AccountData.total]
        at hsum1 hsum2 hTI1 hbound1 hinv ⊢
      rw [sfb_totalIssuance]
      by_cases hd : (s.accounts who).free - value < ED <;>
        simp only [hd, if_true, if_false] at hsum1 hsum2 hTI1 ⊢ <;> omega

lemma conserve_transfer (ED MAX : Nat) (S : Finset Nat) (s : State) (src dst amount : Nat)
    (hsrc : src ∈ S) (hdst : dst ∈ S) (hinv : conservesOn S s) :
    conservesOn S (runOp ED MAX s (.transfer src dst amount)) := by
  have hrun : runOp ED MAX s (.transfer src dst amount)
      = (transfer ED s src dst amount).toOption.getD s := rfl
  rw [hrun]; unfold transfer
  by_cases h0 : amount = 0 ∨ src = dst
  · simpa [h0] using hinv
  · rcases h : ensure_can_withdraw s src amount with e | u
    · simpa [h0, h] using hinv
    · have hok : ensure_can_withdraw s src amount = .ok () := by rw [h]
      rw [ensure_can_withdraw_ok] at hok
      have hamt : ¬ amount = 0 := fun hc => h0 (Or.inl hc)
      have hne : ¬ src = dst := fun hc => h0 (Or.inr hc)
      have hle : amount ≤ free_balance s src := by tauto
      rw [if_neg h0]
      dsimp only [free_balance]
      by_cases hED : ED ≤ (s.accounts dst).free + amount
      · rw [if_pos hED, if_pos hne]
        dsimp only [Except.toOption, Option.getD]
        have hsum1 := sfb_sum ED s src ((s.accounts src).free - amount) S hsrc
        have hTI1 := sfb_totalIssuance ED s src ((s.accounts src).free - amount)
        have hsum2 := sfb_sum ED (set_free_balance ED s src ((s.accounts src).free - amount)) dst
          ((s.accounts dst).free + amount) S hdst
        have hTI2 := sfb_totalIssuance ED
          (set_free_balance ED s src ((s.accounts src).free - amount)) dst
          ((s.accounts dst).free + amount)
        have hbound1 := total_le_sum S s.accounts hsrc
        have hnd : ¬ ((s.accounts dst).free + amount < ED) := by omega
        have haccd : (set_free_balance ED s src ((s.accounts src).free - amount)).accounts dst
            = s.accounts dst := by
          rw [sfb_accounts]
          exact Function.update_noteq (Ne.symm hne) _ _
        rw [haccd] at hsum2
        rw [hTI1] at hTI2
        simp only [conservesOn] at hinv ⊢
        simp only [free_balance] at hle
        rw [hTI2]
        simp only [hnd, if_true, if_false, AccountData.total]
          at hsum1 hsum2 hbound1 hinv ⊢
        by_cases hd : (s.accounts src).free - amount < ED <;>
          simp only [hd, if_true, if_false] at hsum1 hsum2 ⊢ <;> omega
      · rw [if_neg hED]
        simpa using hinv

lemma conserve_slash (ED MAX : Nat) (S : Finset Nat) (s : State) (who amount : Nat)
    (hwho : who ∈ S) (hinv : conservesOn S s) :
    conservesOn S (runOp ED MAX s (.slash who amount)) := by
  have hrun : runOp ED MAX s (.slash who amount) = (slash ED s who amount).2 := rfl
  rw [hrun]; unfold slash
  by_cases h0 : amount = 0
  · simpa [h0] using hinv
  · rw [if_neg h0]
    dsimp only
    by_cases hr : amount - min (s.accounts who).free amount = 0
    · rw [if_neg (fun hc => hc hr)]
      by_cases hf : min (s.accounts who).free amount = 0
      · exfalso; omega
      · rw [if_pos hf]
        have hsum1 := sfb_sum ED s who
          ((s.accounts who).free - min (s.accounts who).free amount) S hwho
        have hbound := total_le_sum S s.accounts hwho
        simp only [conservesOn] at hinv ⊢
        rw [sfb_totalIssuance]
        simp only [AccountData.total] at hsum1 hbound hinv ⊢
        by_cases hd :
            (s.accounts who).free - min (s.accounts who).free amount < ED <;>
          simp only [hd, if_true, if_false] at hsum1 ⊢ <;> omega
    · rw [if_pos hr]
      dsimp only
      by_cases hf : min (s.accounts who).free amount = 0
      · rw [if_neg (fun hc => hc hf)]
        have hsum2 := srb_sum s who
          ((s.accounts who).reserved
            - min (s.accounts who).reserved (amount - min (s.accounts who).free amount)) S hwho
        have hbound := total_le_sum S s.accounts hwho
        simp only [conservesOn] at hinv ⊢
        simp only [set_reserved_balance, AccountData.total] at hsum2 hbound hinv ⊢
        omega
      · rw [if_pos hf]
        have hsum1 := sfb_sum ED s who
          ((s.accounts who).free - min (s.accounts who).free amount) S hwho
        have hbound := total_le_sum S s.accounts hwho
        have hsum2 := srb_sum
          (set_free_balance ED s who
            ((s.accounts who).free - min (s.accounts who).free amount)) who
          ((s.accounts who).reserved
            - min (s.accounts who).reserved (amount - min (s.accounts who).free amount)) S hwho
        have hbound2 := total_le_sum S
          (set_free_balance ED s who
            ((s.accounts who).free - min (s.accounts who).free amount)).accounts hwho
        simp only [conservesOn] at hinv ⊢
        simp only [set_reserved_balance, sfb_accounts, Function.update_same, AccountData.total]
          at hsum1 hsum2 hbound hbound2 hinv ⊢
        rw [sfb_totalIssuance]
        by_cases hd :
            (s.accounts who).free - min (s.accounts who).free amount < ED <;>
          simp only [hd, if_true, if_false] at hsum1 hsum2 hbound2 ⊢ <;> omega

lemma conserve_repatriate (ED MAX : Nat) (S : Finset Nat) (s : State)
    (slashed beneficiary value : Nat) (status : BalanceStatus)
    (hsl : slashed ∈ S) (hb : beneficiary ∈ S) (hinv : conservesOn S s) :
    conservesOn S (runOp ED MAX s (.repatriateReserved slashed beneficiary value status)) := by
  have hrun : runOp ED MAX s (.repatriateReserved slashed beneficiary value status)
      = (((repatriate_reserved ED s slashed beneficiary value status).toOption).map
          Prod.snd).getD s := rfl
  rw [hrun]; unfold repatriate_reserved
  by_cases h0 : value = 0
  · simpa [h0] using hinv
  · rw [if_neg h0]
    by_cases heq : slashed = beneficiary
    · rw [if_pos heq]
      cases status with
      | free =>
        exact conserve_unreserve ED MAX S s slashed value hsl hinv
      | reserved =>
        simpa using hinv
    · rw [if_neg heq]
      dsimp only [reserved_balance]
      cases status with
      | free =>
        dsimp only [Except.toOption, Option.map, Option.getD]
        have hsum1 := sfb_sum ED s beneficiary
          ((s.accounts beneficiary).free + min (s.accounts slashed).reserved value) S hb
        have hTI1 := sfb_totalIssuance ED s beneficiary
          ((s.accounts beneficiary).free + min (s.accounts slashed).reserved value)
        have hsum2 := srb_sum
          (set_free_balance ED s beneficiary
            ((s.accounts beneficiary).free + min (s.accounts slashed).reserved value)) slashed
          ((s.accounts slashed).reserved - min (s.accounts slashed).reserved value) S hsl
        have haccsl : (set_free_balance ED s beneficiary
              ((s.accounts beneficiary).free + min (s.accounts slashed).reserved value)).accounts
              slashed = s.accounts slashed := by
          rw [sfb_accounts]
          exact Function.update_noteq heq _ _
        rw [haccsl] at hsum2
        have hbound1 := total_le_sum S s.accounts hb
        have hbound2 := total_le_sum S s.accounts hsl
        simp only [conservesOn] at hinv ⊢
        simp only [set_reserved_balance, AccountData.total] at hsum1 hsum2 hbound1 hbound2 hinv ⊢
        rw [sfb_totalIssuance]
        by_cases hd : (s.accounts beneficiary).free
            + min (s.accounts slashed).reserved value < ED <;>
          simp only [hd, if_true, if_false] at hsum1 hsum2 ⊢ <;> omega
      | reserved =>
        dsimp only [Except.toOption, Option.map, Option.getD]
        have hsum1 := srb_sum s beneficiary
          ((s.accounts beneficiary).reserved + min (s.accounts slashed).reserved value) S hb
        have hsum2 := srb_sum
          (set_reserved_balance s beneficiary
            ((s.accounts beneficiary).reserved + min (s.accounts slashed).reserved value)) slashed
          ((s.accounts slashed).reserved - min (s.accounts slashed).reserved value) S hsl
        have haccsl : (set_reserved_balance s beneficiary
              ((s.accounts beneficiary).reserved
                + min (s.accounts slashed).reserved value)).accounts slashed
              = s.accounts slashed := by
          simp only [set_reserved_balance]
          exact Function.update_noteq heq _ _
        rw [haccsl] at hsum2
        have hbound1 := total_le_sum S s.accounts hb
        have hbound2 := total_le_sum S s.accounts hsl
        simp only [conservesOn] at hinv ⊢
        simp only [set_reserved_balance, AccountData.total] at hsum1 hsum2 hbound1 hbound2 hinv ⊢
        omega

lemma ul_sum (s : State) (who : Nat) (ls : List BalanceLock) (S : Finset Nat) :
    S.sum (fun a => ((update_locks s who ls).accounts a).total)
      = S.sum (fun a => (s.accounts a).total) := by
  refine Finset.sum_congr rfl (fun a _ => ?_)
  unfold update_locks
  dsimp only
  rcases eq_or_ne a who with h | h
  · subst h
    rw [Function.update_same]
    simp [AccountData.total]
  · rw [Function.update_noteq h]

lemma conserve_update_locks (S : Finset Nat) (s : State) (who : Nat) (ls : List BalanceLock)
    (hinv : conservesOn S s) : conservesOn S (update_locks s who ls) := by
  have hTI : (update_locks s who ls).totalIssuance = s.totalIssuance := rfl
  simp only [conservesOn] at hinv ⊢
  rw [hTI, ul_sum]
  exact hinv

lemma conserve_set_lock (ED MAX : Nat) (S : Finset Nat) (s : State) (lock_id who amount : Nat)
    (hinv : conservesOn S s) :
    conservesOn S (runOp ED MAX s (.setLock lock_id who amount)) := by
  have hrun : runOp ED MAX s (.setLock lock_id who amount) = set_lock s lock_id who amount := rfl
  rw [hrun]; unfold set_lock
  by_cases h0 : amount = 0
  · rw [if_pos h0]; exact hinv
  · rw [if_neg h0]
    exact conserve_update_locks S s who _ hinv

lemma conserve_extend_lock (ED MAX : Nat) (S : Finset Nat) (s : State) (lock_id who amount : Nat)
    (hinv : conservesOn S s) :
    conservesOn S (runOp ED MAX s (.extendLock lock_id who amount)) := by
  have hrun : runOp ED MAX s (.extendLock lock_id who amount)
      = extend_lock s lock_id who amount := rfl
  rw [hrun]; unfold extend_lock
  by_cases h0 : amount = 0
  · rw [if_pos h0]; exact hinv
  · rw [if_neg h0]
    exact conserve_update_locks S s who _ hinv

lemma conserve_remove_lock (ED MAX : Nat) (S : Finset Nat) (s : State) (lock_id who : Nat)
    (hinv : conservesOn S s) :
    conservesOn S (runOp ED MAX s (.removeLock lock_id who)) := by
  have hrun : runOp ED MAX s (.removeLock lock_id who) = remove_lock s lock_id who := rfl
  rw [hrun]; unfold remove_lock
  exact conserve_update_locks S s who _ hinv

/-! ### Claim C1 -/

/-- C1: issuance conservation (I1).  For every currency, from any state in
which the total issuance equals the sum over a finite set `S` of accounts
(covering the accounts the operation touches) of free + reserved, every
public engine operation — transfer, deposit, withdraw, slash, reserve,
unreserve, slash_reserved, repatriate_reserved, set_lock, extend_lock,
remove_lock — preserves that equation (deposit, withdraw, slash,
slash_reserved and dust removal move both sides of the equation together;
the rest leave the common value unchanged). -/
theorem issuance_conservation (ED MAX : Nat) (op : Op) (S : Finset Nat) (s : State)
    (htouch : ∀ a ∈ op.touches, a ∈ S) (hinv : conservesOn S s) :
    conservesOn S (runOp ED MAX s op) := by
  cases op with
  | transfer src dst amount =>
    exact conserve_transfer ED MAX S s src dst amount
      (htouch src (by simp [Op.touches])) (htouch dst (by simp [Op.touches])) hinv
  | deposit who amount =>
    exact conserve_deposit ED MAX S s who amount (htouch who (by simp [Op.touches])) hinv
  | withdraw who amount =>
    exact conserve_withdraw ED MAX S s who amount (htouch who (by simp [Op.touches])) hinv
  | slash who amount =>
    exact conserve_slash ED MAX S s who amount (htouch who (by simp [Op.touches])) hinv
  | reserve who value =>
    exact conserve_reserve ED MAX S s who value (htouch who (by simp [Op.touches])) hinv
  | unreserve who value =>
    exact conserve_unreserve ED MAX S s who value (htouch who (by simp [Op.touches])) hinv
  | slashReserved who value =>
    exact conserve_slash_reserved ED MAX S s who value (htouch who (by simp [Op.touches])) hinv
  | repatriateReserved slashed beneficiary value status =>
    exact conserve_repatriate ED MAX S s slashed beneficiary value status
      (htouch slashed (by simp [Op.touches])) (htouch beneficiary (by simp [Op.touches])) hinv
  | setLock lock_id who amount =>
    exact conserve_set_lock ED MAX S s lock_id who amount hinv
  | extendLock lock_id who amount =>
    exact conserve_extend_lock ED MAX S s lock_id who amount hinv
  | removeLock lock_id who =>
    exact conserve_remove_lock ED MAX S s lock_id who hinv

/-- A small concrete state: account 0 holds 10 free units, total issuance 10. -/
def wState : State where
  totalIssuance := 10
  accounts := fun a => if a = 0 then ⟨10, 0, 0⟩ else ⟨0, 0, 0⟩
  locks := fun _ => []
  dust := 0

/-- Witness for C1: conservation holds across a concrete transfer that
dusts the source account (ED = 2, transfer of 9 out of 10). -/
theorem issuance_conservation_witness :
    conservesOn {0, 1} (runOp 2 1000 wState (.transfer 0 1 9)) :=
  issuance_conservation 2 1000 (.transfer 0 1 9) {0, 1} wState
    (by decide) (by unfold conservesOn; decide)

/-! ### Claim C2 -/

/-- C2 (evidence that the code violates the existential-deposit
invariant): from a valid state — account 0 has free = 10 = ED, reserved =
0, total issuance 10, so every account with nonzero total has total ≥ ED —
the single public operation `reserve(0, 1)` leaves account 0 with
total = 1, strictly between 0 and ED = 10.  (`set_free_balance` dusts the
remaining free balance 9 while `set_reserved_balance` performs no
existential-rule check at all, contrary to its own doc comment.) -/
theorem ed_invariant_violation :
    ((wState.accounts 0).total = 10 ∧ (wState.accounts 1).total = 0) ∧
    0 < ((runOp 10 1000 wState (.reserve 0 1)).accounts 0).total ∧
    ((runOp 10 1000 wState (.reserve 0 1)).accounts 0).total < 10 := by
  decide

/-! ### Claim C3 -/

/-- C3: `ensure_can_withdraw` succeeds iff the amount is zero, or
free - amount does not underflow and free - amount ≥ frozen; it returns
`BalanceTooLow` exactly when free - amount underflows, and
`LiquidityRestrictions` exactly when there is no underflow but
free - amount < frozen. -/
theorem ensure_can_withdraw_spec (s : State) (who amount : Nat) :
    (ensure_can_withdraw s who amount = .ok () ↔
      amount = 0 ∨ (amount ≤ (s.accounts who).free ∧
        (s.accounts who).frozen ≤ (s.accounts who).free - amount)) ∧
    (ensure_can_withdraw s who amount = .error .BalanceTooLow ↔
      ¬ amount = 0 ∧ (s.accounts who).free < amount) ∧
    (ensure_can_withdraw s who amount = .error .LiquidityRestrictions ↔
      ¬ amount = 0 ∧ amount ≤ (s.accounts who).free ∧
        (s.accounts who).free - amount < (s.accounts who).frozen) := by
  unfold ensure_can_withdraw checked_sub free_balance
  by_cases h0 : amount = 0 <;> by_cases h1 : amount ≤ (s.accounts who).free <;>
    by_cases h2 : (s.accounts who).frozen ≤ (s.accounts who).free - amount <;>
      simp [h0, h1, h2] <;> omega

/-! ### Claim C4 -/

/-- C4 counterexample: with ED = 2, transferring 9 out of account 0
(free = 10) to account 1 succeeds, yet the total issuance drops from 10
to 9: the source's remainder 1 falls below ED and is removed as dust. -/
theorem transfer_issuance_cex :
    (transfer 2 wState 0 1 9).toOption.map State.totalIssuance = some 9 ∧
      wState.totalIssuance = 10 := by
  decide

/-- C4 amended: a successful `transfer` leaves the total issuance
unchanged, unless the source account's remaining free balance falls
strictly below the existential deposit, in which case the total issuance
decreases by exactly that dusted remainder. -/
theorem transfer_issuance (ED : Nat) (s : State) (src dst amount : Nat)
    (h : (transfer ED s src dst amount).isOk = true) :
    (transfer ED s src dst amount).toOption.map State.totalIssuance =
      some (if ¬ amount = 0 ∧ ¬ src = dst ∧ (s.accounts src).free - amount < ED
            then s.totalIssuance - ((s.accounts src).free - amount)
            else s.totalIssuance) := by
  unfold transfer
  by_cases h0 : amount = 0 ∨ src = dst
  · rcases h0 with h0 | h0 <;> simp [h0, Except.toOption]
  · have hamt : ¬ amount = 0 := fun hc => h0 (Or.inl hc)
    have hne : ¬ src = dst := fun hc => h0 (Or.inr hc)
    rw [if_neg h0]
    unfold transfer at h
    rw [if_neg h0] at h
    rcases hc : ensure_can_withdraw s src amount with e | u
    · rw [hc] at h
      simp [Except.isOk, Except.toBool] at h
    · rw [hc] at h
      dsimp only [free_balance] at h ⊢
      by_cases hED : ED ≤ (s.accounts dst).free + amount
      · rw [if_pos hED, if_pos hne]
        dsimp only [Except.toOption, Option.map, Option.getD]
        rw [sfb_totalIssuance]
        rw [if_neg (by omega : ¬ (s.accounts dst).free + amount < ED)]
        rw [sfb_totalIssuance]
        by_cases hd : (s.accounts src).free - amount < ED <;> simp [hd, hamt, hne]
      · rw [if_neg hED] at h
        simp [Except.isOk, Except.toBool] at h

/-- Witness for the amended C4, at the dusting transfer of 9 from
account 0 (free 10) to account 1 with ED = 2. -/
theorem transfer_issuance_witness :
    (transfer 2 wState 0 1 9).toOption.map State.totalIssuance =
      some (if ¬ (9 : Nat) = 0 ∧ ¬ (0 : Nat) = 1 ∧ (wState.accounts 0).free - 9 < 2
            then wState.totalIssuance - ((wState.accounts 0).free - 9)
            else wState.totalIssuance) :=
  transfer_issuance 2 wState 0 1 9 (by decide)

/-! ### Claim C5 -/

/-- A concrete state whose account 0 holds a sub-existential free balance
(as genesis can create): free = 1, total issuance 1. -/
def dState : State where
  totalIssuance := 1
  accounts := fun a => if a = 0 then ⟨1, 0, 0⟩ else ⟨0, 0, 0⟩
  locks := fun _ => []
  dust := 0

/-- C5 counterexample: with ED = 10 and MAX = 100, account 0 has free = 1
(nonzero, so the silent-success branch does not apply) and depositing 2
succeeds but does not add 2 to the free balance and the issuance: the new
free balance 3 falls below ED and is dusted, leaving free = 0 and total
issuance 0 instead of free = 3 and issuance 3. -/
theorem deposit_cex :
    (deposit 10 100 dState 0 2).toOption.map
        (fun t => ((t.accounts 0).free, t.totalIssuance)) = some (0, 0) ∧
      ¬ ((deposit 10 100 dState 0 2).toOption.map
          (fun t => ((t.accounts 0).free, t.totalIssuance))
            = some ((dState.accounts 0).free + 2, dState.totalIssuance + 2)) := by
  decide

/-- C5 amended: (1) for an account with free = 0 and 0 < amount < ED that
does not overflow the total issuance, deposit succeeds and leaves the
entire state unchanged (account, issuance and dust sink); (2) for
amount > 0 with free + amount ≥ ED (as holds in every engine-reachable
state, where free is 0 or ≥ ED), deposit adds amount to both the total
issuance and the free balance, failing with TotalIssuanceOverflow exactly
when the issuance check fails; and (3) for amount > 0 the deposit returns
TotalIssuanceOverflow iff TotalIssuance + amount overflows. -/
theorem deposit_spec (ED MAX : Nat) (s : State) (who amount : Nat) :
    (¬ amount = 0 → (s.accounts who).free = 0 → amount < ED →
        s.totalIssuance + amount ≤ MAX → deposit ED MAX s who amount = .ok s) ∧
    (¬ amount = 0 → ED ≤ (s.accounts who).free + amount →
        deposit ED MAX s who amount =
          if s.totalIssuance + amount ≤ MAX then
            .ok { s with
              totalIssuance := s.totalIssuance + amount
              accounts := Function.update s.accounts who
                { s.accounts who with free := (s.accounts who).free + amount } }
          else .error .TotalIssuanceOverflow) ∧
    (¬ amount = 0 →
      (deposit ED MAX s who amount = .error .TotalIssuanceOverflow ↔
        MAX < s.totalIssuance + amount)) := by
  refine ⟨?_, ?_, ?_⟩
  · intro hnz hfree hamt hover
    unfold deposit
    rw [if_neg hnz, if_pos (by simp [checked_add, hover])]
    dsimp only [free_balance]
    rw [if_pos ⟨hfree, hamt⟩]
  · intro hnz hvalid
    unfold deposit
    rw [if_neg hnz]
    by_cases hover : s.totalIssuance + amount ≤ MAX
    · rw [if_pos (by simp [checked_add, hover]), if_pos hover]
      dsimp only [free_balance]
      rw [if_neg (by omega : ¬ ((s.accounts who).free = 0 ∧ amount < ED))]
      unfold set_free_balance
      rw [if_neg (by omega : ¬ (s.accounts who).free + amount < ED)]
    · rw [if_neg (by simp [checked_add, hover]), if_neg hover]
  · intro hnz
    unfold deposit
    rw [if_neg hnz]
    by_cases hover : s.totalIssuance + amount ≤ MAX
    · rw [if_pos (by simp [checked_add, hover])]
      dsimp only [free_balance]
      constructor
      · intro hc
        exfalso
        by_cases hnoop : (s.accounts who).free = 0 ∧ amount < ED
        · rw [if_pos hnoop] at hc
          exact Except.noConfusion hc
        · rw [if_neg hnoop] at hc
          exact Except.noConfusion hc
      · intro hc; omega
    · rw [if_neg (by simp [checked_add, hover])]
      simp
      omega

/-- Witness for the amended C5 at concrete inputs (ED = 10, MAX = 100):
the silent no-op on account 1 (free 0, amount 3 < ED), the plain addition
on account 0 (free 10, amount 12), and the overflow characterization at
amount 200. -/
theorem deposit_spec_witness :
    deposit 10 100 wState 1 3 = .ok wState ∧
    deposit 10 100 wState 0 12 =
      (if wState.totalIssuance + 12 ≤ 100 then
        .ok { wState with
          totalIssuance := wState.totalIssuance + 12
          accounts := Function.update wState.accounts 0
            { wState.accounts 0 with free := (wState.accounts 0).free + 12 } }
       else .error .TotalIssuanceOverflow) ∧
    (deposit 10 100 wState 0 200 = .error .TotalIssuanceOverflow ↔
      100 < wState.totalIssuance + 200) :=
  ⟨(deposit_spec 10 100 wState 1 3).1 (by decide) (by decide) (by decide) (by decide),
   (deposit_spec 10 100 wState 0 12).2.1 (by decide) (by decide),
   (deposit_spec 10 100 wState 0 200).2.2 (by decide)⟩

/-! ### Lock lemmas (towards claim C6) -/

lemma frozenOf_foldl (ls : List BalanceLock) (acc : Nat) :
    ls.foldl (fun m l => max m l.amount) acc
      = max acc ((ls.map (fun l => l.amount)).foldr max 0) := by
  induction ls generalizing acc with
  | nil => simp
  | cons l t ih =>
    simp only [List.foldl_cons, List.map_cons, List.foldr_cons, ih]
    omega

lemma frozenOf_eq (ls : List BalanceLock) :
    frozenOf ls = (ls.map (fun l => l.amount)).foldr max 0 := by
  have h := frozenOf_foldl ls 0
  simpa [frozenOf] using h

lemma update_locks_locks (s : State) (who : Nat) (ls : List BalanceLock) :
    (update_locks s who ls).locks who = ls := by
  simp [update_locks]

lemma update_locks_frozen (s : State) (who : Nat) (ls : List BalanceLock) :
    ((update_locks s who ls).accounts who).frozen = frozenOf ls := by
  simp [update_locks]

lemma LockInv_update_locks (s : State) (who : Nat) (ls : List BalanceLock)
    (h : (ls.map (fun l => l.id)).Nodup) : LockInv (update_locks s who ls) who := by
  unfold LockInv
  rw [update_locks_locks, update_locks_frozen, frozenOf_eq]
  exact ⟨h, rfl⟩

lemma setLockScan_not_mem (lock_id : Nat) (ls : List BalanceLock) (nl : Option BalanceLock)
    (h : ∀ l ∈ ls, ¬ l.id = lock_id) : setLockScan lock_id ls nl = (ls, nl) := by
  induction ls with
  | nil => rfl
  | cons l t ih =>
    unfold setLockScan
    rw [if_neg (h l (List.mem_cons_self l t))]
    rw [ih (fun x hx => h x (List.mem_cons_of_mem l hx))]

lemma extendLockScan_not_mem (lock_id : Nat) (ls : List BalanceLock) (nl : Option BalanceLock)
    (h : ∀ l ∈ ls, ¬ l.id = lock_id) : extendLockScan lock_id ls nl = (ls, nl) := by
  induction ls with
  | nil => rfl
  | cons l t ih =>
    unfold extendLockScan
    rw [if_neg (h l (List.mem_cons_self l t))]
    rw [ih (fun x hx => h x (List.mem_cons_of_mem l hx))]

lemma setLockScan_some (lock_id : Nat) (x : BalanceLock) (ls : List BalanceLock)
    (hnd : (ls.map (fun l => l.id)).Nodup) :
    setLockScan lock_id ls (some x)
      = if lock_id ∈ ls.map (fun l => l.id)
        then (ls.map (fun l => if l.id = lock_id then x else l), none)
        else (ls, some x) := by
  induction ls with
  | nil => simp [setLockScan]
  | cons l t ih =>
    simp only [List.map_cons, List.nodup_cons] at hnd
    by_cases h : l.id = lock_id
    · have hnone : ∀ y ∈ t, ¬ y.id = lock_id := by
        intro y hy hc
        exact hnd.1 (by rw [h, ← hc]; exact List.mem_map_of_mem _ hy)
      unfold setLockScan
      rw [if_pos h, setLockScan_not_mem lock_id t none hnone]
      have hmap : t.map (fun l => if l.id = lock_id then x else l) = t := by
        have h1 : t.map (fun l => if l.id = lock_id then x else l)
            = t.map (fun l => l) :=
          List.map_congr_left (fun a ha => if_neg (hnone a ha))
        simpa using h1
      rw [if_pos (by simp [List.mem_cons, h])]
      simp [if_pos h, hmap]
    · unfold setLockScan
      rw [if_neg h, ih hnd.2]
      by_cases hm : lock_id ∈ t.map (fun l => l.id)
      · rw [if_pos hm, if_pos (by simp [List.mem_cons, hm])]
        simp [if_neg h]
      · rw [if_neg hm,
          if_neg (by simp only [List.map_cons, List.mem_cons]
                     exact fun hc => hc.elim (fun he => h he.symm) hm)]

lemma extendLockScan_some (lock_id : Nat) (x : BalanceLock) (ls : List BalanceLock)
    (hnd : (ls.map (fun l => l.id)).Nodup) :
    extendLockScan lock_id ls (some x)
      = if lock_id ∈ ls.map (fun l => l.id)
        then (ls.map (fun l =>
            if l.id = lock_id then ⟨l.id, max l.amount x.amount⟩ else l), none)
        else (ls, some x) := by
  induction ls with
  | nil => simp [extendLockScan]
  | cons l t ih =>
    simp only [List.map_cons, List.nodup_cons] at hnd
    by_cases h : l.id = lock_id
    · have hnone : ∀ y ∈ t, ¬ y.id = lock_id := by
        intro y hy hc
        exact hnd.1 (by rw [h, ← hc]; exact List.mem_map_of_mem _ hy)
      unfold extendLockScan
      rw [if_pos h, extendLockScan_not_mem lock_id t none hnone]
      have hmap : t.map (fun l =>
          if l.id = lock_id then (⟨l.id, max l.amount x.amount⟩ : BalanceLock) else l) = t := by
        have h1 : t.map (fun l =>
            if l.id = lock_id then (⟨l.id, max l.amount x.amount⟩ : BalanceLock) else l)
              = t.map (fun l => l) :=
          List.map_congr_left (fun a ha => if_neg (hnone a ha))
        simpa using h1
      rw [if_pos (by simp [List.mem_cons, h])]
      simp [if_pos h, hmap]
    · unfold extendLockScan
      rw [if_neg h, ih hnd.2]
      by_cases hm : lock_id ∈ t.map (fun l => l.id)
      · rw [if_pos hm, if_pos (by simp [List.mem_cons, hm])]
        simp [if_neg h]
      · rw [if_neg hm,
          if_neg (by simp only [List.map_cons, List.mem_cons]
                     exact fun hc => hc.elim (fun he => h he.symm) hm)]

lemma set_lock_locks (s : State) (lock_id who amount : Nat) (hnz : ¬ amount = 0)
    (hnd : ((s.locks who).map (fun l => l.id)).Nodup) :
    (set_lock s lock_id who amount).locks who
      = if lock_id ∈ (s.locks who).map (fun l => l.id)
        then (s.locks who).map (fun l => if l.id = lock_id then ⟨lock_id, amount⟩ else l)
        else s.locks who ++ [⟨lock_id, amount⟩] := by
  unfold set_lock
  rw [if_neg hnz, setLockScan_some lock_id ⟨lock_id, amount⟩ (s.locks who) hnd]
  by_cases hm : lock_id ∈ (s.locks who).map (fun l => l.id)
  · rw [if_pos hm, if_pos hm]
    exact update_locks_locks s who _
  · rw [if_neg hm, if_neg hm]
    exact update_locks_locks s who _

lemma extend_lock_locks (s : State) (lock_id who amount : Nat) (hnz : ¬ amount = 0)
    (hnd : ((s.locks who).map (fun l => l.id)).Nodup) :
    (extend_lock s lock_id who amount).locks who
      = if lock_id ∈ (s.locks who).map (fun l => l.id)
        then (s.locks who).map (fun l =>
            if l.id = lock_id then ⟨l.id, max l.amount amount⟩ else l)
        else s.locks who ++ [⟨lock_id, amount⟩] := by
  unfold extend_lock
  rw [if_neg hnz, extendLockScan_some lock_id ⟨lock_id, amount⟩ (s.locks who) hnd]
  by_cases hm : lock_id ∈ (s.locks who).map (fun l => l.id)
  · rw [if_pos hm, if_pos hm]
    exact update_locks_locks s who _
  · rw [if_neg hm, if_neg hm]
    exact update_locks_locks s who _

lemma set_lock_frozen (s : State) (lock_id who amount : Nat) (hnz : ¬ amount = 0) :
    ((set_lock s lock_id who amount).accounts who).frozen
      = frozenOf ((set_lock s lock_id who amount).locks who) := by
  unfold set_lock
  rw [if_neg hnz]
  rw [update_locks_frozen, update_locks_locks]

lemma extend_lock_frozen (s : State) (lock_id who amount : Nat) (hnz : ¬ amount = 0) :
    ((extend_lock s lock_id who amount).accounts who).frozen
      = frozenOf ((extend_lock s lock_id who amount).locks who) := by
  unfold extend_lock
  rw [if_neg hnz]
  rw [update_locks_frozen, update_locks_locks]

lemma ids_map_of_id_eq (f : BalanceLock → BalanceLock) (hf : ∀ a, (f a).id = a.id)
    (ls : List BalanceLock) :
    (ls.map f).map (fun l => l.id) = ls.map (fun l => l.id) := by
  rw [List.map_map]
  exact List.map_congr_left (fun a _ => hf a)

lemma find?_map_of_id_eq (f : BalanceLock → BalanceLock) (hf : ∀ a, (f a).id = a.id)
    (id2 : Nat) (ls : List BalanceLock) :
    (ls.map f).find? (fun l => l.id == id2)
      = (ls.find? (fun l => l.id == id2)).map f := by
  rw [List.find?_map]
  have hp : ((fun l : BalanceLock => l.id == id2) ∘ f)
      = (fun l : BalanceLock => l.id == id2) := by
    funext a
    simp [Function.comp, hf a]
  rw [hp]

lemma lockAmount_map_other (f : BalanceLock → BalanceLock) (lock_id : Nat)
    (hf : ∀ a, (f a).id = a.id) (hfix : ∀ a, ¬ a.id = lock_id → f a = a)
    (id2 : Nat) (hne : ¬ id2 = lock_id) (ls : List BalanceLock) :
    lockAmount id2 (ls.map f) = lockAmount id2 ls := by
  unfold lockAmount
  rw [find?_map_of_id_eq f hf id2 ls]
  rcases hfind : ls.find? (fun l => l.id == id2) with _ | l2
  · rw [hfind]; rfl
  · rw [hfind]
    have hl2 : l2.id = id2 := by simpa using List.find?_some hfind
    have hfl2 : f l2 = l2 := hfix l2 (by rw [hl2]; exact hne)
    simp [hfl2]

lemma find?_mem_id (lock_id : Nat) (ls : List BalanceLock)
    (hmem : lock_id ∈ ls.map (fun l => l.id)) :
    ∃ l0, ls.find? (fun l => l.id == lock_id) = some l0 ∧ l0.id = lock_id := by
  have h1 : (ls.find? (fun l => l.id == lock_id)).isSome := by
    rw [List.find?_isSome]
    rcases List.mem_map.1 hmem with ⟨l0, hl0, hid⟩
    exact ⟨l0, hl0, by simp [hid]⟩
  rcases hfind : ls.find? (fun l => l.id == lock_id) with _ | l0
  · rw [hfind] at h1; simp at h1
  · exact ⟨l0, hfind, by simpa using List.find?_some hfind⟩

lemma find?_none_of_not_mem (lock_id : Nat) (ls : List BalanceLock)
    (hnm : ¬ lock_id ∈ ls.map (fun l => l.id)) :
    ls.find? (fun l => l.id == lock_id) = none := by
  rw [List.find?_eq_none]
  intro x hx hc
  exact hnm (List.mem_map.2 ⟨x, hx, by simpa using hc⟩)

lemma lockAmount_append_self (lock_id amt : Nat) (ls : List BalanceLock)
    (hnm : ¬ lock_id ∈ ls.map (fun l => l.id)) :
    lockAmount lock_id (ls ++ [⟨lock_id, amt⟩]) = some amt := by
  unfold lockAmount
  rw [List.find?_append, find?_none_of_not_mem lock_id ls hnm]
  simp

lemma lockAmount_append_other (lock_id amt id2 : Nat) (hne : ¬ id2 = lock_id)
    (ls : List BalanceLock) :
    lockAmount id2 (ls ++ [⟨lock_id, amt⟩]) = lockAmount id2 ls := by
  unfold lockAmount
  rw [List.find?_append]
  have h2 : List.find? (fun l => l.id == id2) ([⟨lock_id, amt⟩] : List BalanceLock) = none := by
    have hb : (lock_id == id2) = false := by
      simp only [beq_eq_false_iff_ne, ne_eq]
      exact fun hc => hne hc.symm
    simp [hb]
  rw [h2, Option.or_none]

/-! ### Claim C6 -/

/-- C6: lock invariant (I5/I6/P3).  Starting from a per-account state whose
lock list has pairwise-distinct ids and whose frozen field is the maximum
lock amount, each of `set_lock`, `extend_lock` and `remove_lock` preserves
both properties; moreover (for nonzero amount) `set_lock` replaces the
entry with the given id by the new amount while leaving every other id's
entry unchanged, and `extend_lock` stores the maximum of the existing and
new amounts for that id (the new amount if absent), also leaving other ids
unchanged. -/
theorem lock_ops_spec (s : State) (lock_id who amount : Nat) (hpre : LockInv s who) :
    LockInv (set_lock s lock_id who amount) who ∧
    LockInv (extend_lock s lock_id who amount) who ∧
    LockInv (remove_lock s lock_id who) who ∧
    (¬ amount = 0 →
      lockAmount lock_id ((set_lock s lock_id who amount).locks who) = some amount) ∧
    (¬ amount = 0 →
      lockAmount lock_id ((extend_lock s lock_id who amount).locks who)
        = some (match lockAmount lock_id (s.locks who) with
            | some a => max a amount
            | none => amount)) ∧
    (∀ id2, ¬ id2 = lock_id →
      lockAmount id2 ((set_lock s lock_id who amount).locks who)
          = lockAmount id2 (s.locks who) ∧
        lockAmount id2 ((extend_lock s lock_id who amount).locks who)
          = lockAmount id2 (s.locks who)) := by
  obtain ⟨hnd, hfr⟩ := hpre
  have hrem : LockInv (remove_lock s lock_id who) who := by
    unfold remove_lock
    exact LockInv_update_locks s who _
      (List.Nodup.sublist (List.Sublist.map _ (List.filter_sublist _)) hnd)
  have hfset_id : ∀ a : BalanceLock,
      (if a.id = lock_id then (⟨lock_id, amount⟩ : BalanceLock) else a).id = a.id := by
    intro a; by_cases h : a.id = lock_id <;> simp [h]
  have hfext_id : ∀ a : BalanceLock,
      (if a.id = lock_id then (⟨a.id, max a.amount amount⟩ : BalanceLock) else a).id = a.id := by
    intro a; by_cases h : a.id = lock_id <;> simp [h]
  by_cases h0 : amount = 0
  · have hset : set_lock s lock_id who amount = s := by unfold set_lock; rw [if_pos h0]
    have hext : extend_lock s lock_id who amount = s := by unfold extend_lock; rw [if_pos h0]
    rw [hset, hext]
    exact ⟨⟨hnd, hfr⟩, ⟨hnd, hfr⟩, hrem,
      fun hc => absurd h0 hc, fun hc => absurd h0 hc, fun id2 _ => ⟨rfl, rfl⟩⟩
  · have hsl := set_lock_locks s lock_id who amount h0 hnd
    have hel := extend_lock_locks s lock_id who amount h0 hnd
    by_cases hm : lock_id ∈ (s.locks who).map (fun l => l.id)
    · rw [if_pos hm] at hsl hel
      obtain ⟨l0, hl0find, hl0id⟩ := find?_mem_id lock_id (s.locks who) hm
      refine ⟨⟨?_, ?_⟩, ⟨?_, ?_⟩, hrem, ?_, ?_, ?_⟩
      · rw [hsl, ids_map_of_id_eq _ hfset_id]; exact hnd
      · rw [set_lock_frozen s lock_id who amount h0, frozenOf_eq]
      · rw [hel, ids_map_of_id_eq _ hfext_id]; exact hnd
      · rw [extend_lock_frozen s lock_id who amount h0, frozenOf_eq]
      · intro _
        rw [hsl]
        unfold lockAmount
        rw [find?_map_of_id_eq _ hfset_id, hl0find]
        simp [hl0id]
      · intro _
        rw [hel]
        unfold lockAmount
        rw [find?_map_of_id_eq _ hfext_id, hl0find]
        simp [hl0id]
      · intro id2 hne
        rw [hsl, hel]
        constructor
        · exact lockAmount_map_other _ lock_id hfset_id
            (fun a ha => if_neg ha) id2 hne (s.locks who)
        · exact lockAmount_map_other _ lock_id hfext_id
            (fun a ha => if_neg ha) id2 hne (s.locks who)
    · rw [if_neg hm] at hsl hel
      have hnone := find?_none_of_not_mem lock_id (s.locks who) hm
      refine ⟨⟨?_, ?_⟩, ⟨?_, ?_⟩, hrem, ?_, ?_, ?_⟩
      · rw [hsl, List.map_append, List.nodup_append]
        refine ⟨hnd, by simp, ?_⟩
        intro a ha hb
        simp at hb
        subst hb
        exact hm ha
      · rw [set_lock_frozen s lock_id who amount h0, frozenOf_eq]
      · rw [hel, List.map_append, List.nodup_append]
        refine ⟨hnd, by simp, ?_⟩
        intro a ha hb
        simp at hb
        subst hb
        exact hm ha
      · rw [extend_lock_frozen s lock_id who amount h0, frozenOf_eq]
      · intro _
        rw [hsl]
        exact lockAmount_append_self lock_id amount (s.locks who) hm
      · intro _
        rw [hel]
        have h1 := lockAmount_append_self lock_id amount (s.locks who) hm
        have h2 : lockAmount lock_id (s.locks who) = none := by
          unfold lockAmount; rw [hnone]; rfl
        rw [h1, h2]
      · intro id2 hne
        rw [hsl, hel]
        exact ⟨lockAmount_append_other lock_id amount id2 hne (s.locks who),
          lockAmount_append_other lock_id amount id2 hne (s.locks who)⟩

/-- A concrete state with one lock (id 7, amount 5) on account 0. -/
def lState : State where
  totalIssuance := 10
  accounts := fun a => if a = 0 then ⟨10, 0, 5⟩ else ⟨0, 0, 0⟩
  locks := fun a => if a = 0 then [⟨7, 5⟩] else []
  dust := 0

/-- Witness for C6: the lock invariant and the replace/max semantics at a
concrete state holding one lock (id 7, amount 5), operated on with id 7
and amount 9, probing id 3 for the frame condition. -/
theorem lock_ops_spec_witness :
    LockInv (set_lock lState 7 0 9) 0 ∧
    LockInv (extend_lock lState 7 0 9) 0 ∧
    LockInv (remove_lock lState 7 0) 0 ∧
    lockAmount 7 ((set_lock lState 7 0 9).locks 0) = some 9 ∧
    lockAmount 7 ((extend_lock lState 7 0 9).locks 0)
      = some (match lockAmount 7 (lState.locks 0) with
          | some a => max a 9
          | none => 9) ∧
    lockAmount 3 ((set_lock lState 7 0 9).locks 0) = lockAmount 3 (lState.locks 0) ∧
    lockAmount 3 ((extend_lock lState 7 0 9).locks 0) = lockAmount 3 (lState.locks 0) := by
  have h := lock_ops_spec lState 7 0 9 (by unfold LockInv; decide)
  exact ⟨h.1, h.2.1, h.2.2.1, h.2.2.2.1 (by decide), h.2.2.2.2.1 (by decide),
    (h.2.2.2.2.2 3 (by decide)).1, (h.2.2.2.2.2 3 (by decide)).2⟩

end Tokens
